import Mathlib

/-!
Verification development for the capacity-planner engine
(src/src-tauri/src/capacity/mod.rs and src/src-tauri/src/commands/capacity.rs).

Modelling conventions:
* Rust f64 values are modelled as exact rationals (ℚ); one dedicated model `F`
  with NaN and infinities is used where IEEE-754 special values are essential.
* chrono::NaiveDate is modelled by its ordinal day number (ℤ), with the weekday
  given by the index mod 7 (index 0 is a Monday).  A raw date column (an ISO
  string in the database) is a `DateStr`: its `key` is the lexicographic
  position used by the SQL comparisons, and `valid` tells whether
  NaiveDate::parse_from_str succeeds; for a well-formed ISO date the parsed
  value and the lexicographic position coincide, so both are `key`.
* The SQL queries are modelled as filters over in-memory tables (`Db`).
* Rust's HashMap iteration order is not deterministic; wherever the source
  iterates over HashMap keys in an order-sensitive way
  (assignments_by_project.keys() in the optimizer) the enumeration order is an
  explicit parameter of the model.
-/

namespace CapacityPlan

/-! ## Calendar / working-day utility (capacity/mod.rs lines 11-42) -/

inductive Weekday where
  | mon | tue | wed | thu | fri | sat | sun
deriving DecidableEq

/-- Weekday of an ordinal day number; day 0 is a Monday. -/
def dayOfWeek (d : Int) : Weekday :=
  match (d % 7).toNat with
  | 0 => .mon
  | 1 => .tue
  | 2 => .wed
  | 3 => .thu
  | 4 => .fri
  | 5 => .sat
  | _ => .sun

/-- Model of Rust char::is_whitespace for the characters that occur in
working-day specifications. -/
def isWspChar (c : Char) : Bool := c = ' ' || c = '\t' || c = '\n' || c = '\r'

/-- Model of Rust str::split(',') on the character list of a string:
"".split(',') yields one empty token, "a,,b" yields ["a","","b"]. -/
def splitOnComma (s : List Char) : List (List Char) :=
  match s with
  | [] => [[]]
  | c :: rest =>
    let r := splitOnComma rest
    if c = ',' then [] :: r
    else
      match r with
      | [] => [[c]]
      | t :: ts => (c :: t) :: ts

/-- Model of Rust str::trim on a character list. -/
def trimToken (s : List Char) : List Char :=
  ((s.dropWhile isWspChar).reverse.dropWhile isWspChar).reverse

/-- parse_working_days_count (capacity/mod.rs lines 14-19): count of non-empty
trimmed comma-separated tokens, with no filtering by recognizability. -/
def parse_working_days_count (working_days : String) : Nat :=
  ((splitOnComma working_days.toList).filter (fun s => !(trimToken s).isEmpty)).length

/-- The per-token match arm of parse_working_days_set: recognized three-letter
abbreviations map to weekdays, everything else to none. -/
def weekdayOfToken (day : List Char) : Option Weekday :=
  if trimToken day = "Mon".toList then some .mon
  else if trimToken day = "Tue".toList then some .tue
  else if trimToken day = "Wed".toList then some .wed
  else if trimToken day = "Thu".toList then some .thu
  else if trimToken day = "Fri".toList then some .fri
  else if trimToken day = "Sat".toList then some .sat
  else if trimToken day = "Sun".toList then some .sun
  else none

/-- parse_working_days_set (capacity/mod.rs lines 22-36): split on commas,
trim, keep only recognized weekday abbreviations. -/
def parse_working_days_set (working_days : String) : List Weekday :=
  (splitOnComma working_days.toList).filterMap weekdayOfToken

/-- is_working_day (capacity/mod.rs lines 39-42). -/
def is_working_day (date : Int) (working_days_set : List Weekday) : Bool :=
  working_days_set.contains (dayOfWeek date)

/-! ## Data model (models/mod.rs, engine-relevant fields only) -/

/-- A raw date column: `key` is its lexicographic position (for a well-formed
ISO-8601 date this equals its ordinal day number), `valid` whether
NaiveDate::parse_from_str("%Y-%m-%d") succeeds on it. -/
structure DateStr where
  key : Int
  valid : Bool
deriving DecidableEq

/-- NaiveDate::parse_from_str, as used with the map_err wrappers in the
engine. -/
def parseDate (s : DateStr) : Except String Int :=
  if s.valid then .ok s.key else .error "invalid date"

/-- SQLite TEXT comparison of two ISO date columns. -/
def sqlDateLe (a b : DateStr) : Bool := a.key ≤ b.key

structure Person where
  id : Int
  available_hours_per_week : ℚ
  country_id : Option Int
  working_days : String

structure PlanningPeriod where
  id : Int
  start_date : DateStr
  end_date : DateStr

structure Absence where
  person_id : Int
  start_date : DateStr
  end_date : DateStr
  days : Int

structure Holiday where
  country_id : Int
  start_date : DateStr
  end_date : DateStr

structure JobOverheadTask where
  job_id : Int
  effort_hours : ℚ
  effort_period : String
  is_optional : Bool
  optional_weight : ℚ

structure PersonJobAssignment where
  person_id : Int
  job_id : Int
  planning_period_id : Int

structure Assignment where
  id : Int
  person_id : Int
  project_id : Int
  planning_period_id : Int
  productivity_factor : ℚ
  calculated_allocation_percentage : Option ℚ
  calculated_effective_hours : Option ℚ
deriving DecidableEq

structure ProjectRequirement where
  project_id : Int
  planning_period_id : Int
  required_hours : ℚ
  priority : Int

/-- The relational store the engine reads (projects are (id, name) pairs). -/
structure Db where
  planning_periods : List PlanningPeriod
  people : List Person
  projects : List (Int × String)
  assignments : List Assignment
  project_requirements : List ProjectRequirement
  absences : List Absence
  holidays : List Holiday
  person_job_assignments : List PersonJobAssignment
  job_overhead_tasks : List JobOverheadTask

/-! ## Pure helpers (capacity/mod.rs lines 346-381) -/

/-- calculate_assignment_effective_hours (capacity/mod.rs lines 347-353). -/
def calculate_assignment_effective_hours
    (available_hours allocation_percentage productivity_factor : ℚ) : ℚ :=
  available_hours * (allocation_percentage / 100) * productivity_factor

/-- DEFAULT_OPTIONAL_WEIGHT (capacity/mod.rs line 356). -/
def DEFAULT_OPTIONAL_WEIGHT : ℚ := 1 / 2

/-- calculate_available_hours (capacity/mod.rs lines 370-381). -/
def calculate_available_hours
    (base_hours absence_hours holiday_hours required_overhead_hours
     optional_overhead_hours optional_weight : ℚ) : ℚ :=
  let weighted_optional := optional_overhead_hours * optional_weight
  max (base_hours - absence_hours - holiday_hours - required_overhead_hours -
        weighted_optional) 0

/-! ## Availability calculator (capacity/mod.rs lines 150-344) -/

/-- The absence query of calculate_person_available_hours (lines 184-202):
person filter plus the three-clause interval overlap test on raw columns. -/
def fetchAbsences (db : Db) (person_id : Int) (p : PlanningPeriod) : List Absence :=
  db.absences.filter (fun a =>
    a.person_id == person_id &&
      ((sqlDateLe p.start_date a.start_date && sqlDateLe a.start_date p.end_date) ||
       (sqlDateLe p.start_date a.end_date && sqlDateLe a.end_date p.end_date) ||
       (sqlDateLe a.start_date p.start_date && sqlDateLe p.end_date a.end_date)))

/-- The holiday query (lines 209-220): country filter plus inclusive overlap. -/
def fetchHolidays (db : Db) (country_id : Int) (p : PlanningPeriod) : List Holiday :=
  db.holidays.filter (fun h =>
    h.country_id == country_id && sqlDateLe h.start_date p.end_date &&
      sqlDateLe p.start_date h.end_date)

/-- The inner absence loop of the holiday walk (lines 243-256): parse each
absence's dates in order, stop at the first absence containing the day. -/
def dayIsAbsent (absences : List Absence) (current_date : Int) : Except String Bool :=
  match absences with
  | [] => .ok false
  | a :: rest => do
    let absence_start ← parseDate a.start_date
    let absence_end ← parseDate a.end_date
    if absence_start ≤ current_date ∧ current_date ≤ absence_end then
      pure true
    else
      dayIsAbsent rest current_date

/-- The day walk over one holiday's overlap with the period (lines 236-264):
`fuel` is the number of calendar days left to visit starting at `current`. -/
def walkHolidayDays (working_days_set : List Weekday) (absences : List Absence)
    (current : Int) : Nat → Except String Int
  | 0 => .ok 0
  | n + 1 => do
    let c ←
      if is_working_day current working_days_set then do
        let absent ← dayIsAbsent absences current
        pure (if absent then (0 : Int) else 1)
      else
        pure (0 : Int)
    let rest ← walkHolidayDays working_days_set absences (current + 1) n
    pure (c + rest)

/-- One iteration of the holiday loop (lines 224-267): parse the holiday's
dates, clip to the period, walk the overlap if it is non-empty. -/
def holidayDaysForHoliday (working_days_set : List Weekday) (absences : List Absence)
    (start end_ : Int) (h : Holiday) : Except String Int := do
  let holiday_start ← parseDate h.start_date
  let holiday_end ← parseDate h.end_date
  let overlap_start := max holiday_start start
  let overlap_end := min holiday_end end_
  if overlap_start ≤ overlap_end then
    walkHolidayDays working_days_set absences overlap_start
      (overlap_end + 1 - overlap_start).toNat
  else
    pure 0

/-- Sum of counted holiday days over the fetched holidays, in order. -/
def totalHolidayDays (working_days_set : List Weekday) (absences : List Absence)
    (start end_ : Int) : List Holiday → Except String Int
  | [] => .ok 0
  | h :: rest => do
    let d ← holidayDaysForHoliday working_days_set absences start end_ h
    let r ← totalHolidayDays working_days_set absences start end_ rest
    pure (d + r)

/-- The job-assignment query (lines 278-286). -/
def fetchJobAssignments (db : Db) (person_id planning_period_id : Int) :
    List PersonJobAssignment :=
  db.person_job_assignments.filter (fun ja =>
    ja.person_id == person_id && ja.planning_period_id == planning_period_id)

/-- The overhead-task query (lines 296-302). -/
def fetchOverheadTasks (db : Db) (job_id : Int) : List JobOverheadTask :=
  db.job_overhead_tasks.filter (fun t => t.job_id == job_id)

/-- Per-task hours (lines 305-311). -/
def taskHours (total_weeks working_days : ℚ) (task : JobOverheadTask) : ℚ :=
  if task.effort_period = "weekly" then task.effort_hours * total_weeks
  else if task.effort_period = "daily" then task.effort_hours * working_days
  else 0

/-- The overhead accumulation loop (lines 291-321); the triple is
(required overhead, raw optional overhead, weighted optional overhead). -/
def overheadTriple (db : Db) (jas : List PersonJobAssignment)
    (total_weeks working_days : ℚ) : ℚ × ℚ × ℚ :=
  jas.foldl (fun acc ja =>
    (fetchOverheadTasks db ja.job_id).foldl (fun acc2 task =>
      let th := taskHours total_weeks working_days task
      if task.is_optional then (acc2.1, acc2.2.1 + th, acc2.2.2 + th * task.optional_weight)
      else (acc2.1 + th, acc2.2.1, acc2.2.2)) acc) (0, 0, 0)

structure PersonAvailableHoursBreakdown where
  available_hours : ℚ
  base_hours : ℚ
  absence_days : Int
  absence_hours : ℚ
  holiday_days : Int
  holiday_hours : ℚ
  overhead_hours : ℚ
  optional_overhead_hours : ℚ
deriving DecidableEq

/-! The locals of calculate_person_available_hours (lines 162-181), as named
definitions so that the function's unfolding stays compact. -/

/-- working_days_count (line 166), as the ℚ it is cast to. -/
def workingDaysCount (person : Person) : ℚ :=
  (parse_working_days_count person.working_days : ℚ)

/-- total_weeks (lines 162-170): inclusive day span over 7. -/
def totalWeeks (start end_ : Int) : ℚ := ((end_ - start + 1 : Int) : ℚ) / 7

/-- working_days (line 171). -/
def workingDaysInPeriod (person : Person) (start end_ : Int) : ℚ :=
  totalWeeks start end_ * workingDaysCount person

/-- hours_per_day (lines 174-178), guarding the division by a zero count. -/
def hoursPerDay (person : Person) : ℚ :=
  if workingDaysCount person > 0 then
    person.available_hours_per_week / workingDaysCount person
  else 0

/-- base_hours (line 181). -/
def baseHours (person : Person) (start end_ : Int) : ℚ :=
  workingDaysInPeriod person start end_ * hoursPerDay person

/-- total_absence_days (line 204): the caller-supplied days of the fetched
absences, not recomputed from the spans. -/
def absenceDays (absences : List Absence) : Int :=
  (absences.map (fun a => a.days)).sum

/-- The country dispatch of lines 208-275: (holiday_days, holiday_hours). -/
def holidayPair (person : Person) (db : Db) (planning_period : PlanningPeriod)
    (start end_ : Int) : Except String (Int × ℚ) :=
  match person.country_id with
  | some country_id => do
      let d ← totalHolidayDays (parse_working_days_set person.working_days)
        (fetchAbsences db person.id planning_period) start end_
        (fetchHolidays db country_id planning_period)
      pure (d, (d : ℚ) * hoursPerDay person)
  | none => pure ((0 : Int), (0 : ℚ))

/-- calculate_person_available_hours (capacity/mod.rs lines 151-344). -/
def calculate_person_available_hours (person : Person)
    (planning_period : PlanningPeriod) (db : Db) :
    Except String PersonAvailableHoursBreakdown := do
  let start ← parseDate planning_period.start_date
  let end_ ← parseDate planning_period.end_date
  let hd ← holidayPair person db planning_period start end_
  let ov := overheadTriple db (fetchJobAssignments db person.id planning_period.id)
    (totalWeeks start end_) (workingDaysInPeriod person start end_)
  pure { available_hours :=
           max (baseHours person start end_ -
             (absenceDays (fetchAbsences db person.id planning_period) : ℚ) *
               hoursPerDay person - hd.2 - ov.1 - ov.2.2) 0
         base_hours := baseHours person start end_
         absence_days := absenceDays (fetchAbsences db person.id planning_period)
         absence_hours :=
           (absenceDays (fetchAbsences db person.id planning_period) : ℚ) *
             hoursPerDay person
         holiday_days := hd.1
         holiday_hours := hd.2
         overhead_hours := ov.1
         optional_overhead_hours := ov.2.1 }

/-! ## Allocation optimizer (capacity/mod.rs lines 383-683) -/

structure AssignmentCalculation where
  assignment_id : Int
  calculated_allocation_percentage : ℚ
  calculated_effective_hours : ℚ
deriving DecidableEq

structure ProjectShortfall where
  project_id : Int
  project_name : String
  required_hours : ℚ
  available_effective_hours : ℚ
  shortfall : ℚ
  shortfall_percentage : ℚ
deriving DecidableEq

structure OptimizationResult where
  success : Bool
  calculations : List AssignmentCalculation
  infeasible_projects : List ProjectShortfall
  warnings : List String
deriving DecidableEq

/-- Per-person mutable state of pass 1/2 (lines 464-468). -/
structure PersonState where
  available_hours : ℚ
  remaining_percentage : ℚ

/-- The person_states map, modelled as a total function on person ids.  (The
source unwraps lookups, so only ids present in the people table occur.) -/
def PState := Int → PersonState

/-- Max hours a person can contribute to one project (lines 563-565). -/
def maxContribution (st : PState) (a : Assignment) : ℚ :=
  (st a.person_id).available_hours * ((st a.person_id).remaining_percentage / 100) *
    a.productivity_factor

/-- total_available_hours accumulated over a project's assignments
(lines 556-567). -/
def totalAvailableHours (st : PState) (project_assignments : List Assignment) : ℚ :=
  (project_assignments.map (maxContribution st)).sum

/-- AssignmentCapacity (lines 546-574), snapshotted before distribution. -/
structure AssignmentCapacity where
  assignment : Assignment
  available_hours : ℚ
  remaining_capacity_pct : ℚ
  productivity_factor : ℚ
  max_contribution_hours : ℚ

def capOf (st : PState) (a : Assignment) : AssignmentCapacity :=
  { assignment := a
    available_hours := (st a.person_id).available_hours
    remaining_capacity_pct := (st a.person_id).remaining_percentage
    productivity_factor := a.productivity_factor
    max_contribution_hours := maxContribution st a }

/-- allocated_hours of one assignment (lines 586-587): its proportional share
of hours_to_distribute. -/
def allocatedHours (total_available_hours hours_to_distribute max_contribution_hours : ℚ) : ℚ :=
  max_contribution_hours / total_available_hours * hours_to_distribute

/-- Conversion of the allocated share back to a percentage (lines 589-595). -/
def capAllocationPct (total_available_hours hours_to_distribute : ℚ)
    (cap : AssignmentCapacity) : ℚ :=
  let allocated_hours :=
    allocatedHours total_available_hours hours_to_distribute cap.max_contribution_hours
  if cap.available_hours > 0 then
    min (allocated_hours / cap.productivity_factor / cap.available_hours * 100)
      cap.remaining_capacity_pct
  else 0

/-- One iteration of the distribution loop (lines 584-619): record the
calculation, accumulate project_total_effective, decrement the person's
remaining percentage (floored at 0). -/
def distStep (total_available_hours hours_to_distribute : ℚ)
    (acc : PState × List AssignmentCalculation × ℚ) (cap : AssignmentCapacity) :
    PState × List AssignmentCalculation × ℚ :=
  let allocation_pct := capAllocationPct total_available_hours hours_to_distribute cap
  let effective_hours := calculate_assignment_effective_hours cap.available_hours
    allocation_pct cap.productivity_factor
  let st := acc.1
  let pid := cap.assignment.person_id
  let st2 : PState := fun q =>
    if q = pid then
      { st pid with remaining_percentage := max ((st pid).remaining_percentage - allocation_pct) 0 }
    else st q
  (st2,
   acc.2.1 ++ [{ assignment_id := cap.assignment.id
                 calculated_allocation_percentage := allocation_pct
                 calculated_effective_hours := effective_hours }],
   acc.2.2 + effective_hours)

/-- The per-project distribution pass (lines 545-620): snapshot capacities,
cap hours_to_distribute by the available capacity, distribute only when
total_available_hours > 0.  Returns the updated person states, the recorded
calculations and project_total_effective. -/
def processProject (st0 : PState) (required_hours : ℚ)
    (project_assignments : List Assignment) :
    PState × List AssignmentCalculation × ℚ :=
  let caps := project_assignments.map (capOf st0)
  let total_available_hours := totalAvailableHours st0 project_assignments
  let hours_to_distribute := min required_hours total_available_hours
  if total_available_hours > 0 then
    caps.foldl (distStep total_available_hours hours_to_distribute) (st0, [], 0)
  else (st0, [], 0)

/-- Project name lookup (lines 627-632), with the fetch-one fallback. -/
def projectName (db : Db) (project_id : Int) : String :=
  match db.projects.find? (fun p => p.1 == project_id) with
  | some p => p.2
  | none => "Project " ++ toString project_id

/-- The per-project step including the under-staffing check (lines 536-648). -/
def runProject (db : Db) (st0 : PState) (req : ProjectRequirement)
    (project_assignments : List Assignment) :
    PState × List AssignmentCalculation × Option ProjectShortfall :=
  let r := processProject st0 req.required_hours project_assignments
  if r.2.2 < req.required_hours then
    let shortfall := req.required_hours - r.2.2
    let shortfall_pct := shortfall / req.required_hours * 100
    (r.1, r.2.1,
     some { project_id := req.project_id
            project_name := projectName db req.project_id
            required_hours := req.required_hours
            available_effective_hours := r.2.2
            shortfall := shortfall
            shortfall_percentage := shortfall_pct })
  else (r.1, r.2.1, none)

/-- requirements_map lookup (lines 442-445): HashMap collect keeps the last
requirement row for a project id. -/
def reqFor (requirements : List ProjectRequirement) (project_id : Int) :
    Option ProjectRequirement :=
  requirements.foldl (fun acc r => if r.project_id = project_id then some r else acc) none

/-- Building projects_by_priority and the missing-requirement warnings
(lines 490-504), iterating project ids in the HashMap key enumeration order. -/
def buildPriorityList (requirements : List ProjectRequirement) (keys : List Int) :
    List (Int × Int) × List String :=
  keys.foldl (fun acc pid =>
    match reqFor requirements pid with
    | some req => (acc.1 ++ [(req.priority, pid)], acc.2)
    | none => (acc.1,
        acc.2 ++ ["Project ID " ++ toString pid ++ " has assignments but no requirement defined"]))
    ([], [])

/-- Stable insertion, descending by priority: mirrors the stable
sort_by(b.0.cmp(a.0)) of line 507. -/
def insertByPriorityDesc (x : Int × Int) : List (Int × Int) → List (Int × Int)
  | [] => [x]
  | y :: ys => if x.1 ≥ y.1 then x :: y :: ys else y :: insertByPriorityDesc x ys

def sortByPriorityDesc : List (Int × Int) → List (Int × Int)
  | [] => []
  | x :: xs => insertByPriorityDesc x (sortByPriorityDesc xs)

/-- Grouping consecutive equal priorities (lines 510-526). -/
def priorityGroupsLoop : List (Int × Int) → Option Int → List Int → List (List Int) →
    List (List Int)
  | [], _, current_group, groups =>
    if current_group.isEmpty then groups else groups ++ [current_group]
  | (priority, project_id) :: rest, current_priority, current_group, groups =>
    match current_priority with
    | none => priorityGroupsLoop rest (some priority) (current_group ++ [project_id]) groups
    | some cp =>
      if cp = priority then
        priorityGroupsLoop rest (some priority) (current_group ++ [project_id]) groups
      else
        priorityGroupsLoop rest (some priority) [project_id] (groups ++ [current_group])

def priorityGroups (l : List (Int × Int)) : List (List Int) :=
  priorityGroupsLoop l none [] []

/-- The inner loop over the projects of one priority group (lines 536-648);
the requirements lookup cannot miss for ids put into the priority list, the
none arm is unreachable and skips. -/
def processProjectList (db : Db) (requirements : List ProjectRequirement)
    (assignments_by_project : Int → List Assignment) :
    List Int → PState × List AssignmentCalculation × List ProjectShortfall →
    PState × List AssignmentCalculation × List ProjectShortfall
  | [], acc => acc
  | pid :: rest, acc =>
    match reqFor requirements pid with
    | none => processProjectList db requirements assignments_by_project rest acc
    | some req =>
      let r := runProject db acc.1 req (assignments_by_project pid)
      processProjectList db requirements assignments_by_project rest
        (r.1, acc.2.1 ++ r.2.1,
         acc.2.2 ++ (match r.2.2 with | some s => [s] | none => []))

/-- The outer loop over priority groups (lines 529-649). -/
def processGroups (db : Db) (requirements : List ProjectRequirement)
    (assignments_by_project : Int → List Assignment) :
    List (List Int) → PState × List AssignmentCalculation × List ProjectShortfall →
    PState × List AssignmentCalculation × List ProjectShortfall
  | [], acc => acc
  | g :: gs, acc =>
    processGroups db requirements assignments_by_project gs
      (processProjectList db requirements assignments_by_project g acc)

/-- fetch_one of the planning period (lines 394-399). -/
def fetchPlanningPeriod (db : Db) (id : Int) : Except String PlanningPeriod :=
  match db.planning_periods.find? (fun p => p.id == id) with
  | some p => .ok p
  | none => .error "Failed to fetch planning period"

/-- The per-person availability pass (lines 427-431): every person in the
people table, each through calculate_person_available_hours, any error
propagating. -/
def initialAvailability (db : Db) (planning_period : PlanningPeriod) :
    List Person → (Int → ℚ) → Except String (Int → ℚ)
  | [], acc => .ok acc
  | p :: rest, acc => do
    let breakdown ← calculate_person_available_hours p planning_period db
    initialAvailability db planning_period rest
      (fun q => if q = p.id then breakdown.available_hours else acc q)

/-- optimize_assignments_proportional (capacity/mod.rs lines 384-683).
`projectKeyOrder` is the enumeration order of assignments_by_project.keys():
Rust's HashMap gives it in an unspecified, run-dependent order, so it is an
explicit parameter here.  On success the returned calculations are exactly the
rows persisted by the final update loop (lines 651-668); on error nothing is
persisted. -/
def optimize_assignments_proportional (db : Db) (planning_period_id : Int)
    (projectKeyOrder : List Int) : Except String OptimizationResult := do
  let planning_period ← fetchPlanningPeriod db planning_period_id
  let assignments := db.assignments.filter (fun a =>
    a.planning_period_id == planning_period_id)
  if assignments.isEmpty then
    pure { success := true
           calculations := []
           infeasible_projects := []
           warnings := ["No assignments found for this planning period"] }
  else do
    let availability ← initialAvailability db planning_period db.people (fun _ => 0)
    let requirements := db.project_requirements.filter (fun r =>
      r.planning_period_id == planning_period_id)
    let assignments_by_project := fun pid =>
      assignments.filter (fun a => a.project_id == pid)
    let bp := buildPriorityList requirements projectKeyOrder
    let groups := priorityGroups (sortByPriorityDesc bp.1)
    let st0 : PState := fun pid =>
      { available_hours := availability pid, remaining_percentage := 100 }
    let r := processGroups db requirements assignments_by_project groups (st0, [], [])
    pure { success := true
           calculations := r.2.1
           infeasible_projects := r.2.2
           warnings := bp.2 }

/-! ## Capacity reporting views (commands/capacity.rs) -/

/-- staffing_percentage as computed by get_capacity_overview
(commands/capacity.rs lines 182-186). -/
def overviewStaffingPercentage (required_hours total_effective_hours : ℚ) : ℚ :=
  if required_hours > 0 then total_effective_hours / required_hours * 100 else 0

/-- is_viable of get_capacity_overview (line 189). -/
def overviewIsViable (required_hours total_effective_hours : ℚ) : Bool :=
  overviewStaffingPercentage required_hours total_effective_hours ≥ 9995 / 100

/-- shortfall of get_capacity_overview (lines 190-194). -/
def overviewShortfall (required_hours total_effective_hours : ℚ) : ℚ :=
  if !overviewIsViable required_hours total_effective_hours then
    required_hours - total_effective_hours
  else 0

/-- staffing_percentage as computed by get_project_staffing
(commands/capacity.rs lines 409-413). -/
def staffingStaffingPercentage (required_hours total_effective_hours : ℚ) : ℚ :=
  if required_hours > 0 then total_effective_hours / required_hours * 100 else 0

/-- is_viable of get_project_staffing (line 416). -/
def staffingIsViable (required_hours total_effective_hours : ℚ) : Bool :=
  staffingStaffingPercentage required_hours total_effective_hours ≥ 9995 / 100

/-- shortfall of get_project_staffing (lines 417-421). -/
def staffingShortfall (required_hours total_effective_hours : ℚ) : ℚ :=
  if !staffingIsViable required_hours total_effective_hours then
    required_hours - total_effective_hours
  else 0

/-! ## IEEE-754 model for the division-by-zero path

The optimizer's arithmetic is f64.  For the claims whose truth is insensitive
to special values the ℚ model above is used; the percentage-conversion
expression of lines 589-595 is additionally modelled here with NaN and the
infinities, because Rust computes 0.0/0.0 = NaN there and f64::min returns the
other operand when one argument is NaN.  Finite values are exact (no
rounding), and the signed zeros are identified with 0. -/

inductive F where
  | nan : F
  | inf : F
  | ninf : F
  | fin : ℚ → F
deriving DecidableEq

/-- f64 multiplication. -/
def F.mul : F → F → F
  | nan, _ => nan
  | _, nan => nan
  | inf, inf => inf
  | inf, ninf => ninf
  | ninf, inf => ninf
  | ninf, ninf => inf
  | inf, fin b => if b = 0 then nan else if 0 < b then inf else ninf
  | fin a, inf => if a = 0 then nan else if 0 < a then inf else ninf
  | ninf, fin b => if b = 0 then nan else if 0 < b then ninf else inf
  | fin a, ninf => if a = 0 then nan else if 0 < a then ninf else inf
  | fin a, fin b => fin (a * b)

/-- f64 addition. -/
def F.add : F → F → F
  | nan, _ => nan
  | _, nan => nan
  | inf, ninf => nan
  | ninf, inf => nan
  | inf, _ => inf
  | _, inf => inf
  | ninf, _ => ninf
  | _, ninf => ninf
  | fin a, fin b => fin (a + b)

/-- f64 division. -/
def F.div : F → F → F
  | nan, _ => nan
  | _, nan => nan
  | inf, inf => nan
  | inf, ninf => nan
  | ninf, inf => nan
  | ninf, ninf => nan
  | inf, fin b => if 0 ≤ b then inf else ninf
  | ninf, fin b => if 0 ≤ b then ninf else inf
  | fin _, inf => fin 0
  | fin _, ninf => fin 0
  | fin a, fin b =>
    if b = 0 then (if a = 0 then nan else if 0 < a then inf else ninf)
    else fin (a / b)

/-- f64 strict comparison: any comparison with NaN is false. -/
def F.lt : F → F → Bool
  | nan, _ => false
  | _, nan => false
  | ninf, ninf => false
  | ninf, _ => true
  | _, ninf => false
  | inf, _ => false
  | _, inf => true
  | fin a, fin b => a < b

/-- f64::min: if one argument is NaN the other argument is returned. -/
def F.fmin : F → F → F
  | nan, y => y
  | x, nan => x
  | x, y => if F.lt x y then x else y

/-- max_contribution_hours (lines 563-565) in f64. -/
def maxContributionF (available remaining productivity_factor : F) : F :=
  F.mul (F.mul available (F.div remaining (F.fin 100))) productivity_factor

/-- The allocation-percentage conversion of lines 583-595 in f64: allocated
share from the proportional split, then the guarded conversion back to a
percentage. -/
def capAllocationPctF (total_available_hours hours_to_distribute max_contribution_hours
    available_hours productivity_factor remaining_capacity_pct : F) : F :=
  let proportion := F.div max_contribution_hours total_available_hours
  let allocated_hours := F.mul proportion hours_to_distribute
  if F.lt (F.fin 0) available_hours then
    F.fmin
      (F.mul (F.div (F.div allocated_hours productivity_factor) available_hours) (F.fin 100))
      remaining_capacity_pct
  else F.fin 0

/-! ## Shared helper lemmas -/

/-- A token the set-parser recognizes is non-empty after trimming. -/
lemma weekdayOfToken_isSome_trim_ne (x : List Char) (w : Weekday)
    (hw : weekdayOfToken x = some w) : (trimToken x).isEmpty = false := by
  unfold weekdayOfToken at hw
  split_ifs at hw with h1 h2 h3 h4 h5 h6 h7
  · rw [h1]; decide
  · rw [h2]; decide
  · rw [h3]; decide
  · rw [h4]; decide
  · rw [h5]; decide
  · rw [h6]; decide
  · rw [h7]; decide

/-- Tokens kept by the set-parser are a subset of the tokens the count
function counts. -/
lemma filterMap_weekday_length_le (l : List (List Char)) :
    (l.filterMap weekdayOfToken).length ≤
      (l.filter (fun s => !(trimToken s).isEmpty)).length := by
  induction l with
  | nil => simp
  | cons x xs ih =>
    cases hw : weekdayOfToken x with
    | some w =>
      have hne := weekdayOfToken_isSome_trim_ne x w hw
      simp [List.filterMap_cons, List.filter_cons, hw, hne]
      omega
    | none =>
      simp only [List.filterMap_cons, List.filter_cons, hw]
      cases hne : !(trimToken x).isEmpty <;> simp <;> omega

/-! ## Claims -/

/-- C1: for every combination of inputs, calculate_available_hours is
non-negative (floor property), and equals
base − absence − holiday − required_overhead − optional_overhead × weight
whenever that expression is non-negative. -/
theorem calculate_available_hours_floor (base_hours absence_hours holiday_hours
    required_overhead_hours optional_overhead_hours optional_weight : ℚ) :
    0 ≤ calculate_available_hours base_hours absence_hours holiday_hours
        required_overhead_hours optional_overhead_hours optional_weight ∧
    (0 ≤ base_hours - absence_hours - holiday_hours - required_overhead_hours -
        optional_overhead_hours * optional_weight →
      calculate_available_hours base_hours absence_hours holiday_hours
        required_overhead_hours optional_overhead_hours optional_weight =
      base_hours - absence_hours - holiday_hours - required_overhead_hours -
        optional_overhead_hours * optional_weight) := by
  unfold calculate_available_hours
  exact ⟨le_max_right _ _, fun h => max_eq_left h⟩

/-- C1 witness: the spec's concrete scenario 160 − 16 − 8 − 8 − 4×0.5 = 126. -/
theorem calculate_available_hours_floor_witness :
    calculate_available_hours 160 16 8 8 4 (1 / 2) = 126 := by
  have h := (calculate_available_hours_floor 160 16 8 8 4 (1 / 2)).2 (by norm_num)
  rw [h]; norm_num

/-- C2: in one project's distribution pass with positive total capacity, each
assignment's allocated hours equal
(max_contribution_hours / total_available_hours) × hours_to_distribute, hence
for any two assignments on the project the allocated hours are in the same
ratio as their max_contribution_hours (exactly, in the rational model). -/
theorem allocated_hours_proportional (st0 : PState)
    (project_assignments : List Assignment) (required_hours : ℚ) (a b : Assignment)
    (ha : a ∈ project_assignments) (hb : b ∈ project_assignments)
    (hpos : 0 < totalAvailableHours st0 project_assignments) :
    (allocatedHours (totalAvailableHours st0 project_assignments)
        (min required_hours (totalAvailableHours st0 project_assignments))
        (maxContribution st0 a) =
      maxContribution st0 a / totalAvailableHours st0 project_assignments *
        min required_hours (totalAvailableHours st0 project_assignments)) ∧
    allocatedHours (totalAvailableHours st0 project_assignments)
        (min required_hours (totalAvailableHours st0 project_assignments))
        (maxContribution st0 a) * maxContribution st0 b =
      allocatedHours (totalAvailableHours st0 project_assignments)
        (min required_hours (totalAvailableHours st0 project_assignments))
        (maxContribution st0 b) * maxContribution st0 a := by
  refine ⟨rfl, ?_⟩
  unfold allocatedHours
  ring

/-- C2 witness: two assignments with max contributions 40 and 30 on one
project, required 35: allocated shares 20 and 15 stay in ratio 40 : 30. -/
theorem allocated_hours_proportional_witness :
    (allocatedHours
        (totalAvailableHours (fun _ => ⟨40, 100⟩)
          [⟨1, 1, 1, 1, 1, none, none⟩, ⟨2, 2, 1, 1, 3 / 4, none, none⟩])
        (min 35 (totalAvailableHours (fun _ => ⟨40, 100⟩)
          [⟨1, 1, 1, 1, 1, none, none⟩, ⟨2, 2, 1, 1, 3 / 4, none, none⟩]))
        (maxContribution (fun _ => ⟨40, 100⟩) ⟨1, 1, 1, 1, 1, none, none⟩) =
      maxContribution (fun _ => ⟨40, 100⟩) ⟨1, 1, 1, 1, 1, none, none⟩ /
        totalAvailableHours (fun _ => ⟨40, 100⟩)
          [⟨1, 1, 1, 1, 1, none, none⟩, ⟨2, 2, 1, 1, 3 / 4, none, none⟩] *
        min 35 (totalAvailableHours (fun _ => ⟨40, 100⟩)
          [⟨1, 1, 1, 1, 1, none, none⟩, ⟨2, 2, 1, 1, 3 / 4, none, none⟩])) ∧
    allocatedHours
        (totalAvailableHours (fun _ => ⟨40, 100⟩)
          [⟨1, 1, 1, 1, 1, none, none⟩, ⟨2, 2, 1, 1, 3 / 4, none, none⟩])
        (min 35 (totalAvailableHours (fun _ => ⟨40, 100⟩)
          [⟨1, 1, 1, 1, 1, none, none⟩, ⟨2, 2, 1, 1, 3 / 4, none, none⟩]))
        (maxContribution (fun _ => ⟨40, 100⟩) ⟨1, 1, 1, 1, 1, none, none⟩) *
      maxContribution (fun _ => ⟨40, 100⟩) ⟨2, 2, 1, 1, 3 / 4, none, none⟩ =
    allocatedHours
        (totalAvailableHours (fun _ => ⟨40, 100⟩)
          [⟨1, 1, 1, 1, 1, none, none⟩, ⟨2, 2, 1, 1, 3 / 4, none, none⟩])
        (min 35 (totalAvailableHours (fun _ => ⟨40, 100⟩)
          [⟨1, 1, 1, 1, 1, none, none⟩, ⟨2, 2, 1, 1, 3 / 4, none, none⟩]))
        (maxContribution (fun _ => ⟨40, 100⟩) ⟨2, 2, 1, 1, 3 / 4, none, none⟩) *
      maxContribution (fun _ => ⟨40, 100⟩) ⟨1, 1, 1, 1, 1, none, none⟩ :=
  allocated_hours_proportional (fun _ => ⟨40, 100⟩)
    [⟨1, 1, 1, 1, 1, none, none⟩, ⟨2, 2, 1, 1, 3 / 4, none, none⟩] 35
    ⟨1, 1, 1, 1, 1, none, none⟩ ⟨2, 2, 1, 1, 3 / 4, none, none⟩
    (by simp) (by simp)
    (by norm_num [totalAvailableHours, maxContribution])

/-- C4: the claim says allocation_pct is 0 when productivity_factor is 0
because the division is guarded; the code's guard is on available_hours, not
on productivity_factor.  With productivity_factor = 0, available_hours = 40,
remaining 100 and a second assignment making total capacity 32 with
hours_to_distribute 10, the allocated share is 0, the conversion computes
0.0/0.0 = NaN, and f64::min(NaN, 100) = 100: the assignment's allocation
percentage comes out as the full remaining capacity, not 0. -/
theorem zero_productivity_allocation_pct_nan :
    maxContributionF (F.fin 40) (F.fin 100) (F.fin 0) = F.fin 0 ∧
    F.add (F.add (F.fin 0) (maxContributionF (F.fin 40) (F.fin 100) (F.fin 0)))
        (maxContributionF (F.fin 40) (F.fin 100) (F.fin (4 / 5))) = F.fin 32 ∧
    F.fmin (F.fin 10) (F.fin 32) = F.fin 10 ∧
    capAllocationPctF (F.fin 32) (F.fin 10) (F.fin 0) (F.fin 40) (F.fin 0)
        (F.fin 100) = F.fin 100 ∧
    F.fin 100 ≠ F.fin 0 := by
  refine ⟨?_, ?_, ?_, ?_, by simp⟩ <;>
    norm_num [maxContributionF, capAllocationPctF, F.mul, F.div, F.add, F.fmin, F.lt]

/-- C5: a project is viable exactly when staffing_percentage ≥ 99.95, in both
get_capacity_overview and get_project_staffing: 99.96 is viable with
shortfall 0, 99.94 is not, with shortfall = required − total_effective. -/
theorem viability_threshold (required_hours total_effective_hours : ℚ) :
    (overviewIsViable required_hours total_effective_hours =
      decide (overviewStaffingPercentage required_hours total_effective_hours ≥
        9995 / 100)) ∧
    (staffingIsViable required_hours total_effective_hours =
      decide (staffingStaffingPercentage required_hours total_effective_hours ≥
        9995 / 100)) ∧
    (overviewStaffingPercentage required_hours total_effective_hours = 9996 / 100 →
      overviewIsViable required_hours total_effective_hours = true ∧
      overviewShortfall required_hours total_effective_hours = 0) ∧
    (overviewStaffingPercentage required_hours total_effective_hours = 9994 / 100 →
      overviewIsViable required_hours total_effective_hours = false ∧
      overviewShortfall required_hours total_effective_hours =
        required_hours - total_effective_hours) ∧
    (staffingStaffingPercentage required_hours total_effective_hours = 9996 / 100 →
      staffingIsViable required_hours total_effective_hours = true ∧
      staffingShortfall required_hours total_effective_hours = 0) ∧
    (staffingStaffingPercentage required_hours total_effective_hours = 9994 / 100 →
      staffingIsViable required_hours total_effective_hours = false ∧
      staffingShortfall required_hours total_effective_hours =
        required_hours - total_effective_hours) := by
  refine ⟨by simp [overviewIsViable], by simp [staffingIsViable], ?_, ?_, ?_, ?_⟩ <;>
    intro h <;>
    constructor <;>
    simp [overviewIsViable, overviewShortfall, staffingIsViable, staffingShortfall, h] <;>
    norm_num

/-- C5 witness: required 100 with effective 99.96 is viable with shortfall 0
(overview view), required 100 with effective 99.94 is not viable with
shortfall 100 − 99.94 (staffing view). -/
theorem viability_threshold_witness :
    (overviewIsViable 100 (9996 / 100) = true ∧
      overviewShortfall 100 (9996 / 100) = 0) ∧
    (staffingIsViable 100 (9994 / 100) = false ∧
      staffingShortfall 100 (9994 / 100) = 100 - 9994 / 100) :=
  ⟨(viability_threshold 100 (9996 / 100)).2.2.1
      (by norm_num [overviewStaffingPercentage]),
   (viability_threshold 100 (9994 / 100)).2.2.2.2.2
      (by norm_num [staffingStaffingPercentage])⟩

/-- C6: the count function counts every non-empty trimmed token while the
set-parser keeps only recognized weekday abbreviations: "Mon,Bogus,Wed"
counts 3 but parses to a 2-element set, the empty string gives count 0 and an
empty set, and in general the parsed set never has more elements than the
count. -/
theorem working_days_count_set_asymmetry :
    parse_working_days_count "Mon,Bogus,Wed" = 3 ∧
    (parse_working_days_set "Mon,Bogus,Wed").length = 2 ∧
    parse_working_days_set "Mon,Bogus,Wed" = [.mon, .wed] ∧
    parse_working_days_count "" = 0 ∧
    parse_working_days_set "" = [] ∧
    ∀ s : String, (parse_working_days_set s).length ≤ parse_working_days_count s := by
  refine ⟨by decide, by decide, by decide, by decide, by decide, ?_⟩
  intro s
  exact filterMap_weekday_length_le (splitOnComma s.toList)

/-- C8: a project whose summed total_available_hours is 0 gets no
distribution pass: no calculations are recorded, person states are untouched,
and the project is recorded infeasible exactly when its required hours are
positive. -/
theorem zero_capacity_project (db : Db) (st0 : PState) (req : ProjectRequirement)
    (project_assignments : List Assignment)
    (h : totalAvailableHours st0 project_assignments = 0) :
    processProject st0 req.required_hours project_assignments = (st0, [], 0) ∧
    (runProject db st0 req project_assignments).2.1 = [] ∧
    (runProject db st0 req project_assignments).1 = st0 ∧
    ((runProject db st0 req project_assignments).2.2.isSome ↔
      0 < req.required_hours) := by
  have hp : processProject st0 req.required_hours project_assignments = (st0, [], 0) := by
    unfold processProject
    rw [h]
    simp
  refine ⟨hp, ?_, ?_, ?_⟩ <;>
    · unfold runProject
      rw [hp]
      by_cases hr : 0 < req.required_hours <;> simp [hr]

/-- C8 witness: one assignment on a person with 0 available hours, required
hours 5: no calculations, state unchanged, recorded infeasible. -/
theorem zero_capacity_project_witness :
    processProject (fun _ => ⟨0, 100⟩) (⟨1, 1, 5, 10⟩ : ProjectRequirement).required_hours
        [⟨1, 1, 1, 1, 1, none, none⟩] = (fun _ => ⟨0, 100⟩, [], 0) ∧
    (runProject ⟨[], [], [], [], [], [], [], [], []⟩ (fun _ => ⟨0, 100⟩) ⟨1, 1, 5, 10⟩
        [⟨1, 1, 1, 1, 1, none, none⟩]).2.1 = [] ∧
    (runProject ⟨[], [], [], [], [], [], [], [], []⟩ (fun _ => ⟨0, 100⟩) ⟨1, 1, 5, 10⟩
        [⟨1, 1, 1, 1, 1, none, none⟩]).1 = (fun _ => ⟨0, 100⟩) ∧
    ((runProject ⟨[], [], [], [], [], [], [], [], []⟩ (fun _ => ⟨0, 100⟩) ⟨1, 1, 5, 10⟩
        [⟨1, 1, 1, 1, 1, none, none⟩]).2.2.isSome ↔
      0 < (⟨1, 1, 5, 10⟩ : ProjectRequirement).required_hours) :=
  zero_capacity_project ⟨[], [], [], [], [], [], [], [], []⟩ (fun _ => ⟨0, 100⟩)
    ⟨1, 1, 5, 10⟩ [⟨1, 1, 1, 1, 1, none, none⟩]
    (by norm_num [totalAvailableHours, maxContribution])

/-! ## Concrete database for the priority-tie determinism claim -/

/-- A planning period of exactly one calendar week: days 0..6, day 0 being a
Monday (the ISO week 2024-01-01..2024-01-07, say). -/
def weekPeriod : PlanningPeriod := ⟨1, ⟨0, true⟩, ⟨6, true⟩⟩

/-- One person, 40 h/week, Mon-Fri, no country: available hours for
weekPeriod are 40. -/
def tiePerson : Person := ⟨1, 40, none, "Mon,Tue,Wed,Thu,Fri"⟩

/-- Two projects with the same priority (10 = Medium), each requiring 30 h,
each with one assignment of the single person at productivity 1. -/
def tieDb : Db :=
  { planning_periods := [weekPeriod]
    people := [tiePerson]
    projects := [(1, "P1"), (2, "P2")]
    assignments := [⟨1, 1, 1, 1, 1, none, none⟩, ⟨2, 1, 2, 1, 1, none, none⟩]
    project_requirements := [⟨1, 1, 30, 10⟩, ⟨2, 1, 30, 10⟩]
    absences := []
    holidays := []
    person_job_assignments := []
    job_overhead_tasks := [] }

lemma parse_count_weekdays : parse_working_days_count "Mon,Tue,Wed,Thu,Fri" = 5 := by
  decide

lemma tiePerson_avail :
    calculate_person_available_hours tiePerson weekPeriod tieDb =
      .ok ⟨40, 40, 0, 0, 0, 0, 0, 0⟩ := by
  with_unfolding_all rfl

lemma tieFetchPeriod : fetchPlanningPeriod tieDb 1 = .ok weekPeriod := rfl

lemma tieInitAvail :
    initialAvailability tieDb weekPeriod tieDb.people (fun _ => 0) =
      .ok (fun q => if q = 1 then 40 else 0) := by
  with_unfolding_all rfl

lemma tieRun12 :
    optimize_assignments_proportional tieDb 1 [1, 2] =
      .ok { success := true
            calculations := [⟨1, 75, 30⟩, ⟨2, 25, 10⟩]
            infeasible_projects := [⟨2, "P2", 30, 10, 20, 200 / 3⟩]
            warnings := [] } := by
  with_unfolding_all rfl

lemma tieRun21 :
    optimize_assignments_proportional tieDb 1 [2, 1] =
      .ok { success := true
            calculations := [⟨2, 75, 30⟩, ⟨1, 25, 10⟩]
            infeasible_projects := [⟨1, "P1", 30, 10, 20, 200 / 3⟩]
            warnings := [] } := by
  with_unfolding_all rfl

/-- C3: the claim asserts two successive runs produce identical calculated
fields and that equal-priority projects are processed in a stable,
deterministic order.  The code enumerates assignments_by_project.keys() from a
std HashMap, whose iteration order is randomized per map instance, and the
tie-breaking sort is only by priority; on tieDb (two priority-10 projects
competing for one person) the two possible key enumerations [1, 2] and [2, 1]
are both priority-sorted, yet they yield different
calculated_allocation_percentage and calculated_effective_hours for the same
assignments (75%/30h vs 25%/10h on assignment 1), so the persisted fields are
not stable across runs. -/
theorem optimize_depends_on_priority_tie_order :
    optimize_assignments_proportional tieDb 1 [1, 2] =
      .ok { success := true
            calculations := [⟨1, 75, 30⟩, ⟨2, 25, 10⟩]
            infeasible_projects := [⟨2, "P2", 30, 10, 20, 200 / 3⟩]
            warnings := [] } ∧
    optimize_assignments_proportional tieDb 1 [2, 1] =
      .ok { success := true
            calculations := [⟨2, 75, 30⟩, ⟨1, 25, 10⟩]
            infeasible_projects := [⟨1, "P1", 30, 10, 20, 200 / 3⟩]
            warnings := [] } ∧
    optimize_assignments_proportional tieDb 1 [1, 2] ≠
      optimize_assignments_proportional tieDb 1 [2, 1] := by
  refine ⟨tieRun12, tieRun21, ?_⟩
  rw [tieRun12, tieRun21]
  intro h
  simp only [Except.ok.injEq, OptimizationResult.mk.injEq, List.cons.injEq,
    AssignmentCalculation.mk.injEq] at h
  exact absurd h.2.1.1.1 (by decide)

/-! ## Error propagation of the availability pass -/

/-- If the availability calculation fails for any person in the list, the
whole pass fails. -/
lemma initialAvailability_error (db : Db) (pp : PlanningPeriod) :
    ∀ (people : List Person) (acc : Int → ℚ) (p : Person) (e : String),
      p ∈ people → calculate_person_available_hours p pp db = .error e →
      ∃ e2, initialAvailability db pp people acc = .error e2 := by
  intro people
  induction people with
  | nil =>
    intro acc p e hmem
    exact absurd hmem (List.not_mem_nil p)
  | cons q rest ih =>
    intro acc p e hmem herr
    cases hq : calculate_person_available_hours q pp db with
    | error e2 =>
      exact ⟨e2, by simp [initialAvailability, hq, Bind.bind, Except.bind]⟩
    | ok b =>
      rcases List.mem_cons.mp hmem with heq | hmem2
      · subst heq
        rw [herr] at hq
        exact absurd hq (by simp)
      · obtain ⟨e2, h2⟩ :=
          ih (fun q2 => if q2 = q.id then b.available_hours else acc q2) p e hmem2 herr
        exact ⟨e2, by simp [initialAvailability, hq, Bind.bind, Except.bind, h2]⟩

/-- C10: the optimizer computes available hours for every person in the
people table, not only those with assignments in the period; if the
calculation fails for any person — here one with no assignment at all — the
whole run returns an error, and since the database updates are the returned
calculations (persisted only on success, after every per-person calculation
succeeded), nothing is persisted. -/
theorem optimize_errors_on_any_person_failure (db : Db) (planning_period_id : Int)
    (projectKeyOrder : List Int) (planning_period : PlanningPeriod) (p : Person)
    (e : String)
    (hperiod : fetchPlanningPeriod db planning_period_id = .ok planning_period)
    (hassign : (db.assignments.filter (fun a =>
        a.planning_period_id == planning_period_id)).isEmpty = false)
    (hp : p ∈ db.people)
    (hnoassign : ∀ a ∈ db.assignments, a.person_id ≠ p.id)
    (herr : calculate_person_available_hours p planning_period db = .error e) :
    ∃ e2, optimize_assignments_proportional db planning_period_id projectKeyOrder =
      .error e2 := by
  obtain ⟨e2, h2⟩ :=
    initialAvailability_error db planning_period db.people (fun _ => 0) p e hp herr
  refine ⟨e2, ?_⟩
  unfold optimize_assignments_proportional
  rw [hperiod]
  simp [Bind.bind, Except.bind, hassign, h2]

/-- A person with a country whose fetched holiday has an unparseable start
date; this person has no assignment in errDb. -/
def errPerson : Person := ⟨2, 40, some 1, "Mon,Tue,Wed,Thu,Fri"⟩

def okPerson : Person := ⟨1, 40, none, "Mon,Tue,Wed,Thu,Fri"⟩

/-- A holiday row whose start_date TEXT sorts inside the period but fails
NaiveDate parsing. -/
def errHoliday : Holiday := ⟨1, ⟨2, false⟩, ⟨2, true⟩⟩

def errDb : Db :=
  { planning_periods := [weekPeriod]
    people := [okPerson, errPerson]
    projects := [(1, "P1")]
    assignments := [⟨1, 1, 1, 1, 1, none, none⟩]
    project_requirements := [⟨1, 1, 30, 10⟩]
    absences := []
    holidays := [errHoliday]
    person_job_assignments := []
    job_overhead_tasks := [] }

/-- C10 witness: in errDb the only assignment belongs to person 1, yet the
bad holiday date of assignment-less person 2 makes the whole optimization
error out. -/
theorem optimize_errors_on_any_person_failure_witness :
    ∃ e2, optimize_assignments_proportional errDb 1 [1] = .error e2 :=
  optimize_errors_on_any_person_failure errDb 1 [1] weekPeriod errPerson
    "invalid date"
    (by with_unfolding_all rfl)
    (by with_unfolding_all rfl)
    (by simp [errDb])
    (by decide)
    (by with_unfolding_all rfl)

/-! ## Priority monotonicity -/

/-- Person X: 10 h/week, so 10 available hours in weekPeriod. -/
def prioPersonX : Person := ⟨1, 10, none, "Mon,Tue,Wed,Thu,Fri"⟩

/-- Person Y: 150 h/week, so 150 available hours in weekPeriod. -/
def prioPersonY : Person := ⟨2, 150, none, "Mon,Tue,Wed,Thu,Fri"⟩

/-- Project 1 (priority 20, High) is staffed only by X; project 2
(priority 10, Medium) only by Y.  Each requires 100 h; total capacity is
160 h, so each fits within total capacity individually (100 ≤ 160) but not
both together (200 > 160). -/
def prioDb : Db :=
  { planning_periods := [weekPeriod]
    people := [prioPersonX, prioPersonY]
    projects := [(1, "High"), (2, "Low")]
    assignments := [⟨1, 1, 1, 1, 1, none, none⟩, ⟨2, 2, 2, 1, 1, none, none⟩]
    project_requirements := [⟨1, 1, 100, 20⟩, ⟨2, 1, 100, 10⟩]
    absences := []
    holidays := []
    person_job_assignments := []
    job_overhead_tasks := [] }

/-- C9 counterexample: on prioDb both projects' required 100 h fit within the
160 h total capacity and together exceed it, yet the higher-priority project
(staffed only by the 10 h person) is recorded with shortfall 90 while the
lower-priority project is not recorded infeasible at all (shortfall 0): the
higher-priority shortfall is strictly greater, contradicting the claim. -/
theorem priority_shortfall_not_monotone :
    calculate_person_available_hours prioPersonX weekPeriod prioDb =
      .ok ⟨10, 10, 0, 0, 0, 0, 0, 0⟩ ∧
    calculate_person_available_hours prioPersonY weekPeriod prioDb =
      .ok ⟨150, 150, 0, 0, 0, 0, 0, 0⟩ ∧
    optimize_assignments_proportional prioDb 1 [1, 2] =
      .ok { success := true
            calculations := [⟨1, 100, 10⟩, ⟨2, 200 / 3, 100⟩]
            infeasible_projects := [⟨1, "High", 100, 10, 90, 90⟩]
            warnings := [] } :=
  ⟨by with_unfolding_all rfl, by with_unfolding_all rfl, by with_unfolding_all rfl⟩

/-- project_total_effective accumulated by the distribution loop is the sum
of the per-capacity effective hours (the allocation percentage of each
iteration depends only on the pre-loop capacity snapshot). -/
lemma foldl_distStep_total (total htd : ℚ) (caps : List AssignmentCapacity) :
    ∀ (st : PState) (cs : List AssignmentCalculation) (t : ℚ),
      (caps.foldl (distStep total htd) (st, cs, t)).2.2 =
        t + (caps.map (fun cap => calculate_assignment_effective_hours
              cap.available_hours (capAllocationPct total htd cap)
              cap.productivity_factor)).sum := by
  induction caps with
  | nil => intro st cs t; simp
  | cons c rest ih =>
    intro st cs t
    simp only [List.foldl_cons, List.map_cons, List.sum_cons, distStep]
    rw [ih]
    ring

/-- When the distribution pass runs (total > 0) the effective hours credited
to one capacity equal exactly its allocated proportional share: the
remaining-capacity cap in the min never cuts below the share. -/
lemma effective_eq_share (total htd : ℚ) (cap : AssignmentCapacity)
    (hmax : cap.max_contribution_hours =
      cap.available_hours * (cap.remaining_capacity_pct / 100) *
        cap.productivity_factor)
    (hav : 0 ≤ cap.available_hours) (hrem : 0 ≤ cap.remaining_capacity_pct)
    (hpf : 0 ≤ cap.productivity_factor)
    (htot : 0 < total) (hhtd0 : 0 ≤ htd) (hhtd : htd ≤ total) :
    calculate_assignment_effective_hours cap.available_hours
      (capAllocationPct total htd cap) cap.productivity_factor =
    allocatedHours total htd cap.max_contribution_hours := by
  rcases eq_or_lt_of_le hav with hA0 | hA
  · unfold capAllocationPct calculate_assignment_effective_hours allocatedHours
    rw [if_neg (by rw [← hA0]; exact lt_irrefl 0)]
    rw [hmax, ← hA0]
    ring
  · rcases eq_or_lt_of_le hpf with hP0 | hP
    · have hm : cap.max_contribution_hours = 0 := by rw [hmax, ← hP0]; ring
      unfold capAllocationPct calculate_assignment_effective_hours allocatedHours
      rw [if_pos hA, hm]
      rw [show (0 : ℚ) / total * htd = 0 by ring]
      rw [show (0 : ℚ) / cap.productivity_factor / cap.available_hours * 100 = 0 by
        simp]
      rw [min_eq_left hrem]
      ring
    · have hR : allocatedHours total htd cap.max_contribution_hours /
          cap.productivity_factor / cap.available_hours * 100 =
          cap.remaining_capacity_pct * (htd / total) := by
        unfold allocatedHours
        rw [hmax]
        field_simp
        ring
      unfold capAllocationPct
      rw [if_pos hA]
      unfold allocatedHours at hR ⊢
      rw [hR, min_eq_left
        (mul_le_of_le_one_right hrem (div_le_one_of_le₀ hhtd htot.le))]
      unfold calculate_assignment_effective_hours
      rw [hmax]
      field_simp
      ring

/-- Proportional shares sum to hours_to_distribute scaled by the total. -/
lemma sum_allocated (total htd : ℚ) (ms : List ℚ) :
    (ms.map (fun m => allocatedHours total htd m)).sum = ms.sum / total * htd := by
  induction ms with
  | nil => simp [allocatedHours]
  | cons m rest ih =>
    simp only [List.map_cons, List.sum_cons, allocatedHours] at ih ⊢
    rw [ih]
    ring

/-- The distribution pass delivers exactly min(required, total available)
effective hours when availabilities, remaining percentages, the productivity
factors and the requirement are non-negative. -/
lemma processProject_total_effective (st0 : PState) (required : ℚ)
    (as : List Assignment)
    (hreq : 0 ≤ required)
    (hav : ∀ pid, 0 ≤ (st0 pid).available_hours)
    (hrem : ∀ pid, 0 ≤ (st0 pid).remaining_percentage)
    (hpf : ∀ a ∈ as, 0 ≤ a.productivity_factor) :
    (processProject st0 required as).2.2 =
      min required (totalAvailableHours st0 as) := by
  have htotnn : 0 ≤ totalAvailableHours st0 as := by
    unfold totalAvailableHours
    apply List.sum_nonneg
    intro x hx
    obtain ⟨a, ha, rfl⟩ := List.mem_map.mp hx
    unfold maxContribution
    have h1 := hav a.person_id
    have h2 := hrem a.person_id
    have h3 := hpf a ha
    positivity
  by_cases htot : 0 < totalAvailableHours st0 as
  · unfold processProject
    rw [if_pos htot, foldl_distStep_total]
    have hcong : ((as.map (capOf st0)).map (fun cap =>
        calculate_assignment_effective_hours cap.available_hours
          (capAllocationPct (totalAvailableHours st0 as)
            (min required (totalAvailableHours st0 as)) cap)
          cap.productivity_factor)) =
        ((as.map (capOf st0)).map (fun cap =>
          allocatedHours (totalAvailableHours st0 as)
            (min required (totalAvailableHours st0 as))
            cap.max_contribution_hours)) := by
      apply List.map_congr_left
      intro cap hcap
      obtain ⟨a, ha, rfl⟩ := List.mem_map.mp hcap
      exact effective_eq_share _ _ _ rfl (hav a.person_id) (hrem a.person_id)
        (hpf a ha) htot (le_min hreq htotnn) (min_le_right _ _)
    rw [hcong]
    have key : ((as.map (capOf st0)).map (fun cap =>
        allocatedHours (totalAvailableHours st0 as)
          (min required (totalAvailableHours st0 as))
          cap.max_contribution_hours)).sum =
        (as.map (maxContribution st0)).sum / totalAvailableHours st0 as *
          min required (totalAvailableHours st0 as) := by
      rw [show ((as.map (capOf st0)).map (fun cap =>
          allocatedHours (totalAvailableHours st0 as)
            (min required (totalAvailableHours st0 as))
            cap.max_contribution_hours)) =
          ((as.map (maxContribution st0)).map (fun m =>
            allocatedHours (totalAvailableHours st0 as)
              (min required (totalAvailableHours st0 as)) m)) from by
        simp only [List.map_map]
        rfl]
      exact sum_allocated _ _ _
    rw [key]
    show 0 + totalAvailableHours st0 as / totalAvailableHours st0 as * _ = _
    rw [div_self htot.ne']
    ring
  · have h0 : totalAvailableHours st0 as = 0 := le_antisymm (not_lt.mp htot) htotnn
    unfold processProject
    rw [h0, if_neg (lt_irrefl 0)]
    rw [min_eq_right hreq]

/-- C9 (amended): the original claim fails on the code (see the
counterexample): a project's requirement fitting within total capacity does
not bound its shortfall, because it can only draw on its own assignees.
Amended: if the higher-priority project's required hours fit within its own
assignments' total available capacity at the time it is processed (with the
run's invariants: non-negative availability, remaining percentage,
productivity factors and requirement), it records no shortfall, and every
shortfall the optimizer does record is strictly positive, so the fitting
project's shortfall (0) is ≤ the lower-priority project's. -/
theorem priority_shortfall_monotone_amended (db db2 : Db) (st0 st2 : PState)
    (req req2 : ProjectRequirement) (as as2 : List Assignment)
    (s : ProjectShortfall)
    (hreq : 0 ≤ req.required_hours)
    (hfit : req.required_hours ≤ totalAvailableHours st0 as)
    (hav : ∀ pid, 0 ≤ (st0 pid).available_hours)
    (hrem : ∀ pid, 0 ≤ (st0 pid).remaining_percentage)
    (hpf : ∀ a ∈ as, 0 ≤ a.productivity_factor)
    (hs : (runProject db2 st2 req2 as2).2.2 = some s) :
    (runProject db st0 req as).2.2 = none ∧ 0 < s.shortfall := by
  constructor
  · have h := processProject_total_effective st0 req.required_hours as hreq hav hrem hpf
    simp only [runProject, h, min_eq_left hfit, lt_irrefl, if_false]
  · simp only [runProject] at hs
    by_cases hc : (processProject st2 req2.required_hours as2).2.2 <
        req2.required_hours
    · rw [if_pos hc] at hs
      simp only [Option.some.injEq] at hs
      rw [← hs]
      exact sub_pos.mpr hc
    · rw [if_neg hc] at hs
      exact absurd hs (by simp)

/-- C9 amended witness: a project requiring 30 h whose single assignee offers
40 h records no shortfall; a later project requiring 30 h with only 20 h of
capacity records the strictly positive shortfall 10. -/
theorem priority_shortfall_monotone_amended_witness :
    (runProject prioDb (fun _ => ⟨40, 100⟩) ⟨1, 1, 30, 20⟩
      [⟨1, 1, 1, 1, 1, none, none⟩]).2.2 = none ∧
    0 < (⟨2, "Low", 30, 20, 10, 100 / 3⟩ : ProjectShortfall).shortfall :=
  priority_shortfall_monotone_amended prioDb prioDb (fun _ => ⟨40, 100⟩)
    (fun _ => ⟨20, 100⟩) ⟨1, 1, 30, 20⟩ ⟨2, 1, 30, 10⟩
    [⟨1, 1, 1, 1, 1, none, none⟩] [⟨2, 1, 2, 1, 1, none, none⟩]
    ⟨2, "Low", 30, 20, 10, 100 / 3⟩
    (by norm_num)
    (by with_unfolding_all decide)
    (fun _ => by norm_num)
    (fun _ => by norm_num)
    (by decide)
    (by with_unfolding_all rfl)

/-! ## Characterization of the holiday day count -/

/-- The condition under which the holiday walk counts a calendar day: it
falls on a working day of the person and inside none of the fetched
absences. -/
def countsAsHolidayDay (working_days_set : List Weekday) (absences : List Absence)
    (d : Int) : Prop :=
  is_working_day d working_days_set = true ∧
    ¬ ∃ a ∈ absences, a.start_date.key ≤ d ∧ d ≤ a.end_date.key

instance (working_days_set : List Weekday) (absences : List Absence) (d : Int) :
    Decidable (countsAsHolidayDay working_days_set absences d) :=
  inferInstanceAs (Decidable (_ ∧ _))

/-- dayIsAbsent with parseable absence dates decides containment in one of
the fetched absences. -/
lemma dayIsAbsent_eq_decide (d : Int) :
    ∀ (absences : List Absence),
      (∀ a ∈ absences, a.start_date.valid = true ∧ a.end_date.valid = true) →
      dayIsAbsent absences d =
        .ok (decide (∃ a ∈ absences, a.start_date.key ≤ d ∧ d ≤ a.end_date.key)) := by
  intro absences
  induction absences with
  | nil => intro hv; simp [dayIsAbsent]
  | cons a rest ih =>
    intro hv
    obtain ⟨hs, he⟩ := hv a (List.mem_cons_self _ _)
    have ihh := ih (fun b hb => hv b (List.mem_cons_of_mem _ hb))
    simp only [dayIsAbsent, parseDate, hs, he, if_true, Bind.bind, Except.bind]
    by_cases hd : a.start_date.key ≤ d ∧ d ≤ a.end_date.key
    · rw [if_pos hd]
      simp [hd, pure, Except.pure]
    · rw [if_neg hd, ihh]
      simp [hd]

/-- Inserting the left endpoint into a shifted integer interval. -/
lemma Int_Ico_insert_left (c : Int) (k : Nat) :
    Finset.Ico c (c + ((k : Int) + 1)) =
      insert c (Finset.Ico (c + 1) (c + 1 + (k : Int))) := by
  ext x
  simp only [Finset.mem_Ico, Finset.mem_insert]
  omega

/-- The day walk counts exactly the days of the visited range satisfying the
holiday-day condition. -/
lemma walkHolidayDays_eq_card (working_days_set : List Weekday)
    (absences : List Absence)
    (hv : ∀ a ∈ absences, a.start_date.valid = true ∧ a.end_date.valid = true) :
    ∀ (n : Nat) (c : Int),
      walkHolidayDays working_days_set absences c n =
        .ok (((Finset.Ico c (c + (n : Int))).filter
          (countsAsHolidayDay working_days_set absences)).card : Int) := by
  intro n
  induction n with
  | zero =>
    intro c
    simp [walkHolidayDays]
  | succ m ih =>
    intro c
    have hnotmem : c ∉ Finset.Ico (c + 1) (c + 1 + (m : Int)) := by
      simp [Finset.mem_Ico]
    have hins : Finset.Ico c (c + ((m : Nat) + 1 : Nat)) =
        insert c (Finset.Ico (c + 1) (c + 1 + (m : Int))) := by
      rw [show ((((m : Nat) + 1 : Nat)) : Int) = (m : Int) + 1 by push_cast; ring]
      exact Int_Ico_insert_left c m
    rw [walkHolidayDays, ih, hins, Finset.filter_insert,
      dayIsAbsent_eq_decide c absences hv]
    by_cases hw : is_working_day c working_days_set
    · rw [if_pos hw]
      simp only [Bind.bind, Except.bind, pure, Except.pure, decide_eq_true_eq]
      by_cases habs : ∃ a ∈ absences, a.start_date.key ≤ c ∧ c ≤ a.end_date.key
      · have hpred : ¬ countsAsHolidayDay working_days_set absences c := by
          intro hcontra
          exact hcontra.2 habs
        rw [if_pos habs, if_neg hpred]
        norm_num
      · have hpred : countsAsHolidayDay working_days_set absences c := ⟨hw, habs⟩
        rw [if_neg habs, if_pos hpred, Finset.card_insert_of_not_mem
          (fun hmem => hnotmem (Finset.mem_of_mem_filter c hmem))]
        rw [Except.ok.injEq]
        push_cast
        ring
    · have hpred : ¬ countsAsHolidayDay working_days_set absences c := by
        intro hcontra
        exact hw hcontra.1
      rw [if_neg hw, if_neg hpred]
      simp only [Bind.bind, Except.bind, pure, Except.pure]
      norm_num

/-- One holiday's contribution is the number of days in the inclusive overlap
of its span with the period that satisfy the holiday-day condition. -/
lemma holidayDaysForHoliday_eq_card (working_days_set : List Weekday)
    (absences : List Absence) (start end_ : Int) (h : Holiday)
    (hv : ∀ a ∈ absences, a.start_date.valid = true ∧ a.end_date.valid = true)
    (hhs : h.start_date.valid = true) (hhe : h.end_date.valid = true) :
    holidayDaysForHoliday working_days_set absences start end_ h =
      .ok (((Finset.Icc (max h.start_date.key start) (min h.end_date.key end_)).filter
        (countsAsHolidayDay working_days_set absences)).card : Int) := by
  unfold holidayDaysForHoliday
  simp only [parseDate, hhs, hhe, if_true, Bind.bind, Except.bind]
  by_cases hov : max h.start_date.key start ≤ min h.end_date.key end_
  · rw [if_pos hov, walkHolidayDays_eq_card working_days_set absences hv]
    have hset : Finset.Ico (max h.start_date.key start)
        (max h.start_date.key start +
          ((min h.end_date.key end_ + 1 - max h.start_date.key start).toNat : Int)) =
        Finset.Icc (max h.start_date.key start) (min h.end_date.key end_) := by
      ext x
      simp only [Finset.mem_Ico, Finset.mem_Icc]
      omega
    rw [hset]
  · rw [if_neg hov]
    rw [Finset.Icc_eq_empty hov]
    simp [pure, Except.pure]

/-- The total holiday-day count is the sum over the fetched holidays of the
per-holiday overlap counts. -/
lemma totalHolidayDays_eq_sum (working_days_set : List Weekday)
    (absences : List Absence) (start end_ : Int)
    (hv : ∀ a ∈ absences, a.start_date.valid = true ∧ a.end_date.valid = true) :
    ∀ holidays : List Holiday,
      (∀ h ∈ holidays, h.start_date.valid = true ∧ h.end_date.valid = true) →
      totalHolidayDays working_days_set absences start end_ holidays =
        .ok ((holidays.map (fun h =>
          (((Finset.Icc (max h.start_date.key start) (min h.end_date.key end_)).filter
            (countsAsHolidayDay working_days_set absences)).card : Int))).sum) := by
  intro holidays
  induction holidays with
  | nil => intro hvh; simp [totalHolidayDays]
  | cons h rest ih =>
    intro hvh
    obtain ⟨hhs, hhe⟩ := hvh h (List.mem_cons_self _ _)
    have ihh := ih (fun g hg => hvh g (List.mem_cons_of_mem _ hg))
    rw [totalHolidayDays,
      holidayDaysForHoliday_eq_card working_days_set absences start end_ h hv hhs hhe]
    simp [ihh, Bind.bind, Except.bind, pure, Except.pure]

/-- Reduction of a bind on a success value, kept as a rewrite lemma so large
terms need no instance unfolding. -/
lemma bindOk {α β : Type} (a : α) (f : α → Except String β) :
    (Bind.bind (Except.ok a) f : Except String β) = f a := rfl

/-- parseDate on a well-formed date column. -/
lemma parseDateValid (k : Int) : parseDate ⟨k, true⟩ = .ok k := rfl

/-- C7: for a person with a country, a calendar day is counted as a holiday
day exactly when it lies in the inclusive overlap of a holiday's span with
the planning period (summed per holiday), falls on one of the person's
working days and lies inside none of the person's fetched absences;
holiday_hours is the count times hours_per_day.  For a person with no
country both holiday figures are 0. -/
theorem holiday_days_characterization (person : Person) (pp : PlanningPeriod)
    (db : Db) (ps pe : Int)
    (hps : pp.start_date = ⟨ps, true⟩) (hpe : pp.end_date = ⟨pe, true⟩)
    (hva : ∀ a ∈ fetchAbsences db person.id pp,
      a.start_date.valid = true ∧ a.end_date.valid = true) :
    (∀ country_id : Int, person.country_id = some country_id →
      (∀ h ∈ fetchHolidays db country_id pp,
        h.start_date.valid = true ∧ h.end_date.valid = true) →
      ∃ bd, calculate_person_available_hours person pp db = .ok bd ∧
        bd.holiday_days = ((fetchHolidays db country_id pp).map (fun h =>
          (((Finset.Icc (max h.start_date.key ps) (min h.end_date.key pe)).filter
            (countsAsHolidayDay (parse_working_days_set person.working_days)
              (fetchAbsences db person.id pp))).card : Int))).sum ∧
        bd.holiday_hours = (bd.holiday_days : ℚ) * hoursPerDay person) ∧
    (person.country_id = none →
      ∃ bd, calculate_person_available_hours person pp db = .ok bd ∧
        bd.holiday_days = 0 ∧ bd.holiday_hours = 0) := by
  have hpair : ∀ country_id : Int, person.country_id = some country_id →
      (∀ h ∈ fetchHolidays db country_id pp,
        h.start_date.valid = true ∧ h.end_date.valid = true) →
      holidayPair person db pp ps pe =
        .ok (((fetchHolidays db country_id pp).map (fun h =>
          (((Finset.Icc (max h.start_date.key ps) (min h.end_date.key pe)).filter
            (countsAsHolidayDay (parse_working_days_set person.working_days)
              (fetchAbsences db person.id pp))).card : Int))).sum,
          (((fetchHolidays db country_id pp).map (fun h =>
            (((Finset.Icc (max h.start_date.key ps) (min h.end_date.key pe)).filter
              (countsAsHolidayDay (parse_working_days_set person.working_days)
                (fetchAbsences db person.id pp))).card : Int))).sum : ℚ) *
            hoursPerDay person) := by
    intro country_id hcid hvh
    unfold holidayPair
    rw [hcid]
    show Bind.bind (totalHolidayDays (parse_working_days_set person.working_days)
        (fetchAbsences db person.id pp) ps pe (fetchHolidays db country_id pp))
        (fun d => pure (d, (d : ℚ) * hoursPerDay person)) = _
    rw [totalHolidayDays_eq_sum (parse_working_days_set person.working_days)
      (fetchAbsences db person.id pp) ps pe hva
      (fetchHolidays db country_id pp) hvh]
    rfl
  constructor
  · intro country_id hcid hvh
    unfold calculate_person_available_hours
    rw [hps, hpe, parseDateValid, bindOk, parseDateValid, bindOk,
      hpair country_id hcid hvh, bindOk]
    exact ⟨_, rfl, rfl, rfl⟩
  · intro hcid
    have hnone : holidayPair person db pp ps pe = .ok (0, 0) := by
      unfold holidayPair
      rw [hcid]
      rfl
    unfold calculate_person_available_hours
    rw [hps, hpe, parseDateValid, bindOk, parseDateValid, bindOk, hnone, bindOk]
    exact ⟨_, rfl, rfl, rfl⟩

/-- A person in country 7, Mon-Fri, 40 h/week. -/
def holPerson : Person := ⟨3, 40, some 7, "Mon,Tue,Wed,Thu,Fri"⟩

/-- Absent on days 1-2 (Tue-Wed) of weekPeriod, 2 days. -/
def holAbsence : Absence := ⟨3, ⟨1, true⟩, ⟨2, true⟩, 2⟩

/-- A country-7 holiday spanning days 2-5 (Wed-Sat). -/
def holHoliday : Holiday := ⟨7, ⟨2, true⟩, ⟨5, true⟩⟩

def holDb : Db :=
  { planning_periods := [weekPeriod]
    people := [holPerson]
    projects := []
    assignments := []
    project_requirements := []
    absences := [holAbsence]
    holidays := [holHoliday]
    person_job_assignments := []
    job_overhead_tasks := [] }

/-- C7 witness: for holPerson the characterization applies, and concretely the
Wed-Sat holiday clipped to the week yields the working days Wed-Fri, of which
Wed is already absent: 2 holiday days, 16 holiday hours, and 40 − 16 − 16 = 8
available hours. -/
theorem holiday_days_characterization_witness :
    (∃ bd, calculate_person_available_hours holPerson weekPeriod holDb = .ok bd ∧
      bd.holiday_days = ((fetchHolidays holDb 7 weekPeriod).map (fun h =>
        (((Finset.Icc (max h.start_date.key 0) (min h.end_date.key 6)).filter
          (countsAsHolidayDay (parse_working_days_set holPerson.working_days)
            (fetchAbsences holDb holPerson.id weekPeriod))).card : Int))).sum ∧
      bd.holiday_hours = (bd.holiday_days : ℚ) * hoursPerDay holPerson) ∧
    calculate_person_available_hours holPerson weekPeriod holDb =
      .ok ⟨8, 40, 2, 16, 2, 16, 0, 0⟩ :=
  ⟨(holiday_days_characterization holPerson weekPeriod holDb 0 6 rfl rfl
      (by decide)).1 7 rfl (by decide),
    by with_unfolding_all rfl⟩

end CapacityPlan
